import Mathlib

/-!
Verification development for the trading-customer churn-classifier notebook
(`notebooks/TradingCustomerChurnClassifierSparkML.jupyter-py36.ipynb`).

The notebook is a linear script: it loads a customer dataframe, one-hot
encodes three categorical columns, assembles a feature vector, fits a
random-forest classifier (and a comparison naive-Bayes classifier), prints
accuracy and F-measure, plots feature importances, publishes the model, and
writes two CSV exports.  Each section below embeds one slice of the notebook
as executable Lean definitions and proves the corresponding properties.
-/

namespace ChurnNotebook

/-! ## Feature-column preparation (notebook cells 19-27)

Cell 19: `categoricalColumns = ['GENDER', 'STATUS', 'HOMEOWNER']`.
Cell 20: `non_categoricalColumns = [c for c in df_churn_pd.columns if c not in categoricalColumns]`.
Cell 22: `non_categoricalColumns.remove('CHURNRISK')` — Python `list.remove`
deletes the first occurrence (and raises `ValueError` when absent, so the
claims assume the column is present).
Cell 27: `assemblerInputs = [c + "classVec" for c in categoricalColumns] + non_categoricalColumns`.
-/

def categoricalColumns : List String := ["GENDER", "STATUS", "HOMEOWNER"]

def non_categoricalColumnsInitial (cols : List String) : List String :=
  cols.filter (fun c => decide (c ∉ categoricalColumns))

def non_categoricalColumns (cols : List String) : List String :=
  (non_categoricalColumnsInitial cols).erase "CHURNRISK"

def assemblerInputs (cols : List String) : List String :=
  categoricalColumns.map (fun c => c ++ "classVec") ++ non_categoricalColumns cols

/-- The columns of the churn dataframe used throughout the notebook: the 16
input fields listed in the scoring cell 51 plus the label `CHURNRISK`. -/
def dfChurnColumns : List String :=
  ["ID", "GENDER", "STATUS", "CHILDREN", "ESTINCOME", "HOMEOWNER", "AGE",
   "TOTALDOLLARVALUETRADED", "TOTALUNITSTRADED", "LARGESTSINGLETRANSACTION",
   "SMALLESTSINGLETRANSACTION", "PERCENTCHANGECALCULATION", "DAYSSINCELASTLOGIN",
   "DAYSSINCELASTTRADE", "NETREALIZEDGAINS_YTD", "NETREALIZEDLOSSES_YTD", "CHURNRISK"]

/-- C1: the label column `CHURNRISK` is excluded from the feature set.  For
every dataframe whose (distinct) column names include `CHURNRISK`, the
`VectorAssembler` input list — the three one-hot `classVec` columns plus the
remaining non-categorical columns — does not contain `CHURNRISK`, so no
component of the assembled feature vector is derived from the label. -/
theorem churnriskExcludedFromFeatures (cols : List String)
    (hmem : "CHURNRISK" ∈ cols) (hnd : cols.Nodup) :
    "CHURNRISK" ∉ assemblerInputs cols := by
  intro hc
  rcases List.mem_append.mp hc with h | h
  · exact absurd h (by decide)
  · exact absurd ((List.Nodup.mem_erase_iff (hnd.filter _)).mp h).1 (by simp)

/-- Witness for C1 at the notebook's actual column list. -/
theorem churnriskExcludedFromFeatures_witness :
    "CHURNRISK" ∉ assemblerInputs dfChurnColumns :=
  churnriskExcludedFromFeatures dfChurnColumns (by decide) (by decide)

/-- C9: the customer `ID` column is used as a predictive feature.  Whenever the
dataframe has an `ID` column, `ID` survives the categorical filter and the
`CHURNRISK` removal, so it is among the columns the cell-26 loop casts to
integer (`non_categoricalColumns`) and among the `VectorAssembler` inputs. -/
theorem idColumnIsFeature (cols : List String) (h : "ID" ∈ cols) :
    "ID" ∈ non_categoricalColumns cols ∧ "ID" ∈ assemblerInputs cols := by
  have h1 : "ID" ∈ non_categoricalColumnsInitial cols :=
    List.mem_filter.mpr ⟨h, by decide⟩
  have h2 : "ID" ∈ non_categoricalColumns cols :=
    (List.mem_erase_of_ne (by decide)).mpr h1
  exact ⟨h2, List.mem_append.mpr (Or.inr h2)⟩

/-- Witness for C9 at the notebook's actual column list. -/
theorem idColumnIsFeature_witness :
    "ID" ∈ non_categoricalColumns dfChurnColumns ∧
      "ID" ∈ assemblerInputs dfChurnColumns :=
  idColumnIsFeature dfChurnColumns (by decide)

/-! ## One-hot encoding and vector assembly (notebook cells 24, 27)

Cell 24 builds a `StringIndexer`/`OneHotEncoder` pair per categorical column.
Spark's `OneHotEncoder` with its default `dropLast=True` maps a category
index `i` drawn from `k` categories to a binary vector of width `k - 1`
whose `i`-th entry is 1 (the last category, `i = k - 1`, becomes all zeros).
Spark's `VectorAssembler` concatenates the per-row values of its input
columns in order; a numeric column contributes one slot and a vector column
contributes its own length, so a per-row column value is embedded as a list
of rationals (numeric columns are singletons). -/

def oneHot (k i : ℕ) : List ℚ :=
  (List.range (k - 1)).map (fun j => if j = i then 1 else 0)

def vectorAssembler (row : String → List ℚ) (inputCols : List String) : List ℚ :=
  (inputCols.map row).flatten

theorem oneHot_length (k i : ℕ) : (oneHot k i).length = k - 1 := by
  simp [oneHot]

theorem flatten_singletons_length (row : String → List ℚ) :
    ∀ l : List String, (∀ c ∈ l, (row c).length = 1) →
      ((l.map row).flatten).length = l.length := by
  intro l
  induction l with
  | nil => intro _; simp
  | cons a t ih =>
      intro h
      simp only [List.map_cons, List.flatten_cons, List.length_append,
        List.length_cons]
      rw [h a (by simp), ih (fun c hc => h c (by simp [hc]))]
      omega

/-- C2: the assembled feature vector's length is the sum of the widths of the
three one-hot vectors (for GENDER, STATUS, HOMEOWNER) plus the number of
numeric (non-categorical, non-label) columns, because `VectorAssembler`
concatenates exactly those inputs in order.  `row` gives each assembler input
column's per-row value; the `classVec` columns hold the one-hot encodings and
every remaining column is numeric (a single slot). -/
theorem featureVectorLength (cols : List String) (row : String → List ℚ)
    (kG iG kS iS kH iH : ℕ)
    (hG : row "GENDERclassVec" = oneHot kG iG)
    (hS : row "STATUSclassVec" = oneHot kS iS)
    (hH : row "HOMEOWNERclassVec" = oneHot kH iH)
    (hnum : ∀ c ∈ non_categoricalColumns cols, (row c).length = 1) :
    (vectorAssembler row (assemblerInputs cols)).length =
      ((kG - 1) + (kS - 1) + (kH - 1)) + (non_categoricalColumns cols).length := by
  have hcat : categoricalColumns.map (fun c => c ++ "classVec") =
      ["GENDERclassVec", "STATUSclassVec", "HOMEOWNERclassVec"] := by decide
  simp only [vectorAssembler, assemblerInputs, hcat, List.map_append,
    List.flatten_append, List.length_append, List.map_cons, List.map_nil,
    List.flatten_cons, List.flatten_nil, List.append_nil]
  rw [hG, hS, hH, oneHot_length, oneHot_length, oneHot_length,
    flatten_singletons_length row _ hnum]
  omega

/-- Witness for C2: a concrete row of the churn dataframe after encoding, with
2 GENDER categories, 3 STATUS categories and 2 HOMEOWNER categories. -/
def witnessEncodedRow : String → List ℚ := fun c =>
  if c = "GENDERclassVec" then oneHot 2 0
  else if c = "STATUSclassVec" then oneHot 3 1
  else if c = "HOMEOWNERclassVec" then oneHot 2 1
  else [42]

/-- Witness for C2 at the notebook's actual column list. -/
theorem featureVectorLength_witness :
    (vectorAssembler witnessEncodedRow (assemblerInputs dfChurnColumns)).length =
      ((2 - 1) + (3 - 1) + (2 - 1)) + (non_categoricalColumns dfChurnColumns).length :=
  featureVectorLength dfChurnColumns witnessEncodedRow 2 0 3 1 2 1
    rfl rfl rfl (by decide)

/-! ## Model precision (notebook cell 35)

`print('Model Precision = ...'.format(results.filter(results.label == results.prediction).count() / float(results.count())))`:
the accuracy of a results dataset is the number of rows whose `label` equals
their `prediction` divided by the total row count. -/

structure ResultRow where
  label : ℚ
  prediction : ℚ
deriving DecidableEq

def modelPrecision (results : List ResultRow) : ℚ :=
  ((results.filter (fun r => decide (r.label = r.prediction))).length : ℚ) /
    (results.length : ℚ)

/-- C4: the reported accuracy is invariant to row order — permuting the rows
of the results dataset leaves count(label == prediction) / count(all rows)
unchanged. -/
theorem modelPrecision_perm_invariant (results results' : List ResultRow)
    (h : results.Perm results') :
    modelPrecision results = modelPrecision results' := by
  unfold modelPrecision
  rw [(h.filter _).length_eq, h.length_eq]

/-- Witness for C4: a concrete reordering of a three-row results dataset. -/
theorem modelPrecision_perm_invariant_witness :
    modelPrecision [⟨1, 1⟩, ⟨2, 1⟩, ⟨0, 0⟩] =
      modelPrecision [⟨0, 0⟩, ⟨1, 1⟩, ⟨2, 1⟩] :=
  modelPrecision_perm_invariant _ _ (by decide)

/-! ## Sorting helper

Structurally recursive insertion sort, used to embed Python's `sorted` in
cell 37 and numpy's `argsort` in cell 38 (both produce an ordering of their
input; only permutation facts about them are used below). -/

def insertLe {α : Type} (le : α → α → Bool) (a : α) : List α → List α
  | [] => [a]
  | b :: t => if le a b then a :: b :: t else b :: insertLe le a t

def sortLe {α : Type} (le : α → α → Bool) : List α → List α
  | [] => []
  | a :: t => insertLe le a (sortLe le t)

theorem insertLe_perm {α : Type} (le : α → α → Bool) (a : α) :
    ∀ l : List α, (insertLe le a l).Perm (a :: l) := by
  intro l
  induction l with
  | nil => simp [insertLe]
  | cons b t ih =>
      by_cases h : le a b = true
      · simp [insertLe, h]
      · simp only [insertLe, h, if_false]
        exact ((ih.cons b).trans (List.Perm.swap a b t)).symm.symm

theorem sortLe_perm {α : Type} (le : α → α → Bool) :
    ∀ l : List α, (sortLe le l).Perm l := by
  intro l
  induction l with
  | nil => simp [sortLe]
  | cons a t ih => exact (insertLe_perm le a (sortLe le t)).trans (ih.cons a)

/-! ## Evaluation on the held-out test split (notebook cells 33, 35, 37)

Cell 33: `results = model.transform(test)` and a column selection.
Cell 35 prints the model precision of `results`.
Cell 37 recomputes `res = model.transform(test)`, extracts the `prediction`
and `label` columns, zips them into `predictionAndLabels`, and feeds them to
`MulticlassMetrics`: `metrics.accuracy` is the fraction of pairs with equal
prediction and label; `metrics.fMeasure(label)` (beta = 1) is the harmonic
mean of the one-vs-rest precision and recall of that class.  The per-class
loop runs over `sorted(labels.distinct().collect())`.

A fitted model is embedded as a function from an input row to its result
row, and the notebook state carries the `train` split alongside `test` and
`model` so that independence from `train` is expressible. -/

def transformModel (model : List ℚ → ResultRow) (data : List (List ℚ)) :
    List ResultRow :=
  data.map model

structure NotebookMLState where
  train : List (List ℚ)
  test : List (List ℚ)
  model : List ℚ → ResultRow

def mmAccuracy (pairs : List (ℚ × ℚ)) : ℚ :=
  ((pairs.filter (fun pr => decide (pr.1 = pr.2))).length : ℚ) /
    (pairs.length : ℚ)

def mmFMeasure (pairs : List (ℚ × ℚ)) (l : ℚ) : ℚ :=
  let tp : ℚ := (pairs.filter (fun pr => decide (pr.1 = l ∧ pr.2 = l))).length
  let predicted : ℚ := (pairs.filter (fun pr => decide (pr.1 = l))).length
  let actual : ℚ := (pairs.filter (fun pr => decide (pr.2 = l))).length
  let p := tp / predicted
  let r := tp / actual
  if p + r = 0 then 0 else 2 * p * r / (p + r)

def cell35Precision (st : NotebookMLState) : ℚ :=
  modelPrecision (transformModel st.model st.test)

def cell37Eval (st : NotebookMLState) : ℚ × List (ℚ × ℚ) :=
  let res := transformModel st.model st.test
  let predictions := res.map (fun r => r.prediction)
  let labels := res.map (fun r => r.label)
  let predictionAndLabels := predictions.zip labels
  let f_measure := mmAccuracy predictionAndLabels
  let labels_itr := sortLe (fun a b => decide (a ≤ b)) labels.dedup
  (f_measure, labels_itr.map (fun l => (l, mmFMeasure predictionAndLabels l)))

/-- C5: the printed model precision, the overall F-measure and the per-class
F-measures are computed from predictions of the fitted model on the test
split only — two notebook states with the same fitted model and the same
test split yield identical metrics whatever their training splits. -/
theorem evaluationUsesTestOnly (st st' : NotebookMLState)
    (hm : st.model = st'.model) (ht : st.test = st'.test) :
    cell35Precision st = cell35Precision st' ∧ cell37Eval st = cell37Eval st' := by
  constructor
  · unfold cell35Precision
    rw [hm, ht]
  · unfold cell37Eval
    rw [hm, ht]

def witnessModel : List ℚ → ResultRow := fun r => ⟨r.headD 0, r.headD 1⟩

def witnessStateA : NotebookMLState := ⟨[[1], [2]], [[3], [4]], witnessModel⟩

def witnessStateB : NotebookMLState := ⟨[[9]], [[3], [4]], witnessModel⟩

/-- Witness for C5: two states sharing model and test but not train. -/
theorem evaluationUsesTestOnly_witness :
    cell35Precision witnessStateA = cell35Precision witnessStateB ∧
      cell37Eval witnessStateA = cell37Eval witnessStateB :=
  evaluationUsesTestOnly witnessStateA witnessStateB rfl rfl

/-! ## Train/test split (notebook cell 31)

`train, test = spark_df_churn.randomSplit([0.7,0.3], seed=100)`.
Spark's `randomSplit` normalises the weights into the cumulative ranges
`[0, 0.7)` and `[0.7, 1.0)` and re-samples the dataframe once per range with
the same seed: each row draws one uniform value in `[0, 1)` and is kept by
the sampler whose range contains it.  The per-row draw is embedded as a
function `rnd` from the row's position to a rational in `[0, 1)`. -/

def randomSplitWeights : List ℚ := [0.7, 0.3]

def randomSplitSeed : ℕ := 100

def splitAssign {α : Type} (rnd : ℕ → ℚ) (rows : List α) :
    List (ℕ × α) × List (ℕ × α) :=
  (rows.enum.filter (fun p => decide (rnd p.1 < 7/10)),
   rows.enum.filter (fun p => decide (7/10 ≤ rnd p.1 ∧ rnd p.1 < 1)))

def randomSplit {α : Type} (rnd : ℕ → ℚ) (rows : List α) : List α × List α :=
  ((splitAssign rnd rows).1.map Prod.snd, (splitAssign rnd rows).2.map Prod.snd)

theorem length_filter_complement {α : Type} (f g : α → Bool) (l : List α)
    (h : ∀ x ∈ l, g x = !f x) :
    (l.filter f).length + (l.filter g).length = l.length := by
  induction l with
  | nil => simp
  | cons a t ih =>
      have ha := h a (by simp)
      have ht := ih (fun x hx => h x (by simp [hx]))
      cases hf : f a
      · rw [hf] at ha
        simp [List.filter_cons, hf, ha]
        omega
      · rw [hf] at ha
        simp [List.filter_cons, hf, ha]
        omega

/-- C7: the split is invoked with weights `[0.7, 0.3]` and seed `100`, and
whenever every per-row draw lies in `[0, 1)` (as a uniform draw does), the
two subsets partition the input: their sizes add up to the input size and
every enumerated row belongs to exactly one of them. -/
theorem trainTestSplitPartitions {α : Type} (rnd : ℕ → ℚ) (rows : List α)
    (hr : ∀ i, 0 ≤ rnd i ∧ rnd i < 1) :
    randomSplitWeights = [7/10, 3/10] ∧ randomSplitSeed = 100 ∧
      (randomSplit rnd rows).1.length + (randomSplit rnd rows).2.length =
        rows.length ∧
      ∀ p ∈ rows.enum,
        (p ∈ (splitAssign rnd rows).1 ∧ p ∉ (splitAssign rnd rows).2) ∨
          (p ∉ (splitAssign rnd rows).1 ∧ p ∈ (splitAssign rnd rows).2) := by
  refine ⟨by norm_num [randomSplitWeights], rfl, ?_, ?_⟩
  · simp only [randomSplit, splitAssign, List.length_map]
    rw [length_filter_complement _ _ _ ?_, List.enum_length]
    intro p _
    by_cases hlt : rnd p.1 < 7/10
    · simp [hlt, not_le.mpr hlt]
    · simp [hlt, not_lt.mp hlt, (hr p.1).2]
  · intro p hp
    by_cases hlt : rnd p.1 < 7/10
    · exact Or.inl ⟨List.mem_filter.mpr ⟨hp, by simp [hlt]⟩,
        fun hc => absurd (of_decide_eq_true (List.mem_filter.mp hc).2).1
          (not_le.mpr hlt)⟩
    · exact Or.inr ⟨fun hc => absurd (of_decide_eq_true (List.mem_filter.mp hc).2)
          hlt,
        List.mem_filter.mpr ⟨hp, by simp [not_lt.mp hlt, (hr p.1).2]⟩⟩

def witnessRnd : ℕ → ℚ := fun i => if i = 0 then 1/2 else 4/5

def witnessSplitRows : List ℚ := [10, 20, 30]

/-- Witness for C7: a three-row input with concrete in-range draws. -/
theorem trainTestSplitPartitions_witness :
    (randomSplit witnessRnd witnessSplitRows).1.length +
        (randomSplit witnessRnd witnessSplitRows).2.length =
      witnessSplitRows.length :=
  (trainTestSplitPartitions witnessRnd witnessSplitRows
    (fun i => by by_cases h : i = 0 <;> simp [witnessRnd, h] <;> norm_num)).2.2.1

/-! ## CSV exports of the test split (notebook cells 55-56)

Cell 55: `write_score_CSV = test.toPandas().drop(['CHURNRISK'], axis=1)` —
the batch-score file drops exactly the `CHURNRISK` column.
Cell 56: `write_eval_CSV = test.toPandas()` — the evaluation file keeps all
columns.  A dataframe is embedded as a header (list of column names) plus
positional rows; pandas `drop(axis=1)` removes every position whose column
name is the dropped label. -/

structure DataFrame (α : Type) where
  cols : List String
  rows : List (List α)
deriving DecidableEq

def dropColumn {α : Type} (df : DataFrame α) (c : String) : DataFrame α :=
  ⟨df.cols.filter (fun x => decide (x ≠ c)),
   df.rows.map (fun r =>
     ((df.cols.zip r).filter (fun p => decide (p.1 ≠ c))).map Prod.snd)⟩

def write_score_CSV {α : Type} (test : DataFrame α) : DataFrame α :=
  dropColumn test "CHURNRISK"

def write_eval_CSV {α : Type} (test : DataFrame α) : DataFrame α :=
  test

def lookupCol {γ : Type} (c : String) : List (String × γ) → Option γ
  | [] => none
  | p :: t => if p.1 = c then some p.2 else lookupCol c t

def colValues {α : Type} (df : DataFrame α) (c : String) : List (Option α) :=
  df.rows.map (fun r => lookupCol c (df.cols.zip r))

theorem filter_key_map_fst {β γ : Type} (q : β → Bool) :
    ∀ l : List (β × γ),
      (l.filter (fun p => q p.1)).map Prod.fst = (l.map Prod.fst).filter q := by
  intro l
  induction l with
  | nil => simp
  | cons p t ih =>
      obtain ⟨k, v⟩ := p
      cases hq : q k <;> simp [List.filter_cons, hq, ih]

theorem zip_fst_snd {β γ : Type} :
    ∀ l : List (β × γ), (l.map Prod.fst).zip (l.map Prod.snd) = l := by
  intro l
  induction l with
  | nil => simp
  | cons p t ih => obtain ⟨k, v⟩ := p; simp [ih]

theorem lookupCol_filter_key_ne {γ : Type} (c b : String) (hcb : c ≠ b) :
    ∀ l : List (String × γ),
      lookupCol c (l.filter (fun p => decide (p.1 ≠ b))) = lookupCol c l := by
  intro l
  induction l with
  | nil => rfl
  | cons p t ih =>
      obtain ⟨k, v⟩ := p
      simp only [ne_eq, decide_not] at ih ⊢
      by_cases hkb : k = b
      · subst hkb
        have hkc : ¬(k = c) := fun h => hcb h.symm
        simp [List.filter_cons, lookupCol, hkc, ih]
      · by_cases hkc : k = c <;>
          simp [List.filter_cons, lookupCol, hkb, hkc, hcb, ih]

/-- C6: both CSV exports derive from the same test split — the evaluation
file is the test dataframe unchanged (all rows, all columns including
`CHURNRISK`), while the batch-score file keeps every test row, has exactly
the `CHURNRISK` column removed from the header, and leaves the values of
every other column unchanged. -/
theorem csvExportsFromTestSplit {α : Type} (test : DataFrame α)
    (hmem : "CHURNRISK" ∈ test.cols)
    (hlen : ∀ r ∈ test.rows, r.length = test.cols.length) :
    write_eval_CSV test = test ∧
      (write_score_CSV test).rows.length = test.rows.length ∧
      (write_score_CSV test).cols =
        test.cols.filter (fun x => decide (x ≠ "CHURNRISK")) ∧
      ∀ c, c ≠ "CHURNRISK" →
        colValues (write_score_CSV test) c = colValues test c := by
  refine ⟨rfl, by simp [write_score_CSV, dropColumn], rfl, ?_⟩
  intro c hc
  simp only [colValues, write_score_CSV, dropColumn, List.map_map]
  refine List.map_congr_left ?_
  intro r hr
  have hle : test.cols.length ≤ r.length := le_of_eq (hlen r hr).symm
  have hcols : test.cols.filter (fun x => decide (x ≠ "CHURNRISK")) =
      ((test.cols.zip r).filter
        (fun p => decide (p.1 ≠ "CHURNRISK"))).map Prod.fst := by
    rw [filter_key_map_fst (fun x => decide (x ≠ "CHURNRISK")) (test.cols.zip r),
      List.map_fst_zip _ _ hle]
  simp only [Function.comp]
  rw [hcols, zip_fst_snd, lookupCol_filter_key_ne c "CHURNRISK" hc]

def witnessTestDF : DataFrame ℤ :=
  ⟨["ID", "CHURNRISK", "AGE"], [[1, 9, 30], [2, 8, 40]]⟩

/-- Witness for C6 on a concrete two-row test split. -/
theorem csvExportsFromTestSplit_witness :
    (write_score_CSV witnessTestDF).rows.length = witnessTestDF.rows.length ∧
      colValues (write_score_CSV witnessTestDF) "ID" =
        colValues witnessTestDF "ID" :=
  ⟨(csvExportsFromTestSplit witnessTestDF (by decide) (by decide)).2.1,
   (csvExportsFromTestSplit witnessTestDF (by decide) (by decide)).2.2.2 "ID"
     (by decide)⟩

/-! ## Scoring request payload (notebook cells 51-52)

Cell 51 builds `values` (one row of raw input values), `fields` (the input
column names) and `scoring_payload = {"fields": fields, "values": [values]}`;
cell 52 sends that single payload to the deployment's scoring endpoint. -/

inductive Json where
  | str (s : String)
  | num (n : ℤ)
  | arr (elems : List Json)
  | obj (members : List (String × Json))

def jsonKeys : Json → List String
  | Json.obj members => members.map Prod.fst
  | _ => []

def jsonGet (j : Json) (k : String) : Option Json :=
  match j with
  | Json.obj members => lookupCol k members
  | _ => none

def values : List Json :=
  [Json.num 4, Json.str "F", Json.str "M", Json.num 2, Json.num 52004,
   Json.str "N", Json.num 60, Json.num 5030, Json.num 23, Json.num 1257,
   Json.num 125, Json.num 3, Json.num 1, Json.num 1, Json.num 1000, Json.num 0]

def fields : List String :=
  ["ID", "GENDER", "STATUS", "CHILDREN", "ESTINCOME", "HOMEOWNER", "AGE",
   "TOTALDOLLARVALUETRADED", "TOTALUNITSTRADED", "LARGESTSINGLETRANSACTION",
   "SMALLESTSINGLETRANSACTION", "PERCENTCHANGECALCULATION", "DAYSSINCELASTLOGIN",
   "DAYSSINCELASTTRADE", "NETREALIZEDGAINS_YTD", "NETREALIZEDLOSSES_YTD"]

def scoring_payload : Json :=
  Json.obj [("fields", Json.arr (fields.map Json.str)),
            ("values", Json.arr [Json.arr values])]

/-- C8: the single scoring request carries a JSON object with exactly the
keys `fields` and `values`; `fields` maps to the flat list of input column
names, `values` maps to a list containing exactly one row-list of values,
and that row has one value per field name (positional correspondence). -/
theorem scoringPayloadShape :
    jsonKeys scoring_payload = ["fields", "values"] ∧
      jsonGet scoring_payload "fields" = some (Json.arr (fields.map Json.str)) ∧
      jsonGet scoring_payload "values" = some (Json.arr [Json.arr values]) ∧
      values.length = fields.length :=
  ⟨rfl, rfl, rfl, rfl⟩

/-! ## Feature-importance plot indexing (notebook cells 38-39)

Cell 38: `features = df_churn_pd.columns`, `importances =
rfModel.featureImportances.values`, `indices = np.argsort(importances)`.
Cell 39 indexes the raw column-name array with those indices:
`(np.array(features))[indices]`.  `np.argsort` returns the indices
`0 .. len-1` reordered by ascending value, embedded here with the insertion
sort over the range of positions. -/

def argsort (xs : List ℚ) : List ℕ :=
  sortLe (fun i j => decide (xs.getD i 0 ≤ xs.getD j 0)) (List.range xs.length)

/-- C10: every index produced by `argsort(importances)` is a valid index
into the raw column-name array `df_churn_pd.columns`, provided the length of
the importance vector (the assembled feature-vector width) is at most the
number of raw dataframe columns. -/
theorem featureImportanceIndexingSafe (importances : List ℚ)
    (h : importances.length ≤ dfChurnColumns.length) :
    (argsort importances).Forall (fun i => i < dfChurnColumns.length) := by
  rw [List.forall_iff_forall_mem]
  intro i hi
  have hperm := sortLe_perm
    (fun i j => decide (importances.getD i 0 ≤ importances.getD j 0))
    (List.range importances.length)
  have hir : i ∈ List.range importances.length := hperm.mem_iff.mp hi
  exact lt_of_lt_of_le (List.mem_range.mp hir) h

def witnessImportances : List ℚ := [3, 1, 2, 2, 0]

/-- Witness for C10 on a concrete importance vector. -/
theorem featureImportanceIndexingSafe_witness :
    (argsort witnessImportances).Forall (fun i => i < dfChurnColumns.length) :=
  featureImportanceIndexingSafe witnessImportances (by decide)

/-! ## Pipeline construction and the naive-Bayes comparison (cells 24, 30, 32, 41, 46)

Cell 24 accumulates a `StringIndexer`/`OneHotEncoder` pair per categorical
column in the Python list `stages`; cell 30 appends the label indexer, the
assembler, the random-forest classifier and the label converter, and builds
`pipeline = Pipeline(stages=stages)`.  The ML library's parameter mechanism
stores the stage list it is handed without copying it, so the `Pipeline`
object holds the very list object bound to `stages`.  Cell 32 fits the
pipeline; fitting reads the stage list at that moment and produces a fitted
model whose own stage sequence is immutable thereafter.  Cell 41 runs
`stages_nb = stages` — a Python name binding, which aliases the same list
object — followed by the in-place item assignment `stages_nb[-2] = nb`.
Cell 46 calls `store_model(model=model, pipeline=pipeline, ...)`, at which
point the pipeline's stages are read again from the (shared, now mutated)
list object.

Python lists are modelled as cells of a heap addressed by natural numbers;
names and the `Pipeline` objects hold addresses, while the fitted model
holds a snapshot taken at fit time. -/

inductive Stage where
  | stringIndexerStage (inCol outCol : String)
  | oneHotEncoderStage (inCol outCol : String)
  | labelIndexerStage
  | assemblerStage
  | rfStage
  | nbStage
  | labelConverterStage
deriving DecidableEq

structure PyListHeap where
  cells : List (List Stage)

def heapGet (h : PyListHeap) (a : ℕ) : List Stage :=
  h.cells.getD a []

def heapSet (h : PyListHeap) (a : ℕ) (v : List Stage) : PyListHeap :=
  ⟨h.cells.set a v⟩

/-- The stage list after cells 24 and 30: one indexer/encoder pair per
categorical column, then label indexer, assembler, random forest, label
converter. -/
def stagesAfterCell30 : List Stage :=
  [Stage.stringIndexerStage "GENDER" "GENDERIndex",
   Stage.oneHotEncoderStage "GENDERIndex" "GENDERclassVec",
   Stage.stringIndexerStage "STATUS" "STATUSIndex",
   Stage.oneHotEncoderStage "STATUSIndex" "STATUSclassVec",
   Stage.stringIndexerStage "HOMEOWNER" "HOMEOWNERIndex",
   Stage.oneHotEncoderStage "HOMEOWNERIndex" "HOMEOWNERclassVec",
   Stage.labelIndexerStage, Stage.assemblerStage, Stage.rfStage,
   Stage.labelConverterStage]

/-- Address of the single list object named `stages`. -/
def stagesAddr : ℕ := 0

/-- Heap after cell 30: one list cell holding the ten stages. -/
def heapAfterCell30 : PyListHeap := ⟨[stagesAfterCell30]⟩

/-- `pipeline = Pipeline(stages=stages)` keeps the handed list object. -/
def pipelineStagesAddr : ℕ := stagesAddr

/-- Cell 32, `model = pipeline.fit(train)`: the fitted model's stage
sequence is a snapshot of the pipeline's stage list taken at fit time. -/
def modelStages : List Stage := heapGet heapAfterCell30 pipelineStagesAddr

/-- Cell 41, `stages_nb = stages`: binding a new name to the same object. -/
def stagesNbAddr : ℕ := stagesAddr

/-- Cell 41, `stages_nb[-2] = nb`: in-place item assignment on the shared
list object (Python index -2 is position `len - 2`). -/
def heapAfterCell41 : PyListHeap :=
  heapSet heapAfterCell30 stagesNbAddr
    ((heapGet heapAfterCell30 stagesNbAddr).set
      ((heapGet heapAfterCell30 stagesNbAddr).length - 2) Stage.nbStage)

/-- `pipeline_nb = Pipeline(stages = stages_nb)` also keeps that object. -/
def pipelineNbStagesAddr : ℕ := stagesNbAddr

/-- Cell 46, `store_model(model=model, pipeline=pipeline, ...)`: the stage
list of the `pipeline` argument as it stands when the model is stored. -/
def storeModelPipelineStages : List Stage :=
  heapGet heapAfterCell41 pipelineStagesAddr

/-- The classifier stage (position `len - 2`) of the pipeline at store time. -/
def classifierStageAtStore : Option Stage :=
  storeModelPipelineStages.get? (storeModelPipelineStages.length - 2)

/-- C3 counterexample: in the notebook's own execution, `stages_nb = stages`
aliases the shared stage list and `stages_nb[-2] = nb` mutates it in place,
so the stages of the already-built random-forest pipeline DO change: the
pipeline passed to `store_model` carries the naive-Bayes classifier, not the
random forest, at its classifier position. -/
theorem pipelineStagesMutatedByAlias :
    storeModelPipelineStages ≠ modelStages ∧
      classifierStageAtStore = some Stage.nbStage ∧
      Stage.nbStage ≠ Stage.rfStage := by
  refine ⟨?_, rfl, by decide⟩
  intro h
  have : stagesAfterCell30.set 8 Stage.nbStage = stagesAfterCell30 := h
  exact absurd (congrArg (fun l => l.get? 8) this) (by decide)

/-- C3 amended: the fitted model (`model = pipeline.fit(train)`, the trained
pipeline) is the ordered composition of the categorical indexers/encoders,
the label indexer, the vector assembler, the random-forest classifier and the
label decoder, and it is immutable — its classifier stage is still the
random forest after cell 41.  The `Pipeline` object, however, shares its
stage list with `stages`, so after `stages_nb[-2] = nb` the pipeline passed
to `store_model` has the naive-Bayes classifier at its classifier position
(only the `model` argument of `store_model` still carries the random
forest). -/
theorem trainedModelKeepsRandomForest :
    modelStages = stagesAfterCell30 ∧
      modelStages.get? (modelStages.length - 2) = some Stage.rfStage ∧
      classifierStageAtStore = some Stage.nbStage := by
  refine ⟨rfl, rfl, rfl⟩

end ChurnNotebook
